import Mathlib

/-!
Verification development for the Terabox link-extraction core
(`terabox_utils.py`, `telegram_utils.py`).

The Python code is shallowly embedded as total Lean functions.  Network
interactions (HTTP requests and their parsed JSON payloads) are modelled by an
explicit environment `Env` that supplies the outcome of each upstream call; a
`none` outcome models a request that raised an exception (or returned a
non-success status where the code checks one).  The fixed regular expressions
of the source are embedded as backtracking matchers over `List Char` with
Python `re.search` semantics (leftmost match position, greedy quantifiers).
-/

set_option maxRecDepth 10000

/-- Matches the literal `lit` at the head of the input and continues with `k`,
returning the total number of consumed characters (embeds a regex literal). -/
def litThen (lit : List Char) (k : List Char → Option Nat) (s : List Char) : Option Nat :=
  if lit.isPrefixOf s then (k (s.drop lit.length)).map (· + lit.length) else none

/-- Matches the character `c` optionally (greedily, as regex `c?`) and
continues with `k`. -/
def optCharThen (c : Char) (k : List Char → Option Nat) : List Char → Option Nat
  | [] => k []
  | c2 :: rest =>
    if c2 = c then
      match k rest with
      | some n => some (n + 1)
      | none => k (c2 :: rest)
    else k (c2 :: rest)

/-- Matches one or more characters of class `cls` (greedy with backtracking,
as regex `X+`) and continues with `k`. -/
def plusThen (cls : Char → Bool) (k : List Char → Option Nat) : List Char → Option Nat
  | [] => none
  | c :: rest =>
    if cls c then
      match plusThen cls k rest with
      | some n => some (n + 1)
      | none => (k rest).map (· + 1)
    else none

/-- End of a pattern: matches the empty string. -/
def endPat : List Char → Option Nat := fun _ => some 0

/-- Python `re.search`: tries the pattern at every position, leftmost first,
and returns the matched text. -/
def searchCapture (p : List Char → Option Nat) : List Char → Option (List Char)
  | [] => (p []).map (fun _ => ([] : List Char))
  | c :: rest =>
    match p (c :: rest) with
    | some n => some ((c :: rest).take n)
    | none => searchCapture p rest

/-- Python `re.search` used as a boolean test (truthiness of the match). -/
def re_search (p : List Char → Option Nat) (s : List Char) : Bool :=
  (searchCapture p s).isSome

/-- Generic search for a pattern with one capturing group: tries `g` at every
position, leftmost first, and returns the group. -/
def groupSearch (g : List Char → Option (List Char)) : List Char → Option (List Char)
  | [] => g []
  | c :: rest =>
    match g (c :: rest) with
    | some r => some r
    | none => groupSearch g rest

/-- Character class `[a-z0-9\-]` of the download-hostname regex. -/
def hostClass (c : Char) : Bool :=
  (97 ≤ c.toNat && c.toNat ≤ 122) || c.isDigit || c = '-'

/-- Embeds the regex `d\-[a-z0-9\-]+\.terabox\.com/file/`
(`is_direct_download_url`, pattern 0). -/
def hostPat : List Char → Option Nat :=
  litThen "d-".data (plusThen hostClass (litThen ".terabox.com/file/".data endPat))

/-- Embeds the regex `size=\d+` (`is_direct_download_url`, pattern 1). -/
def sizePat : List Char → Option Nat :=
  litThen "size=".data (plusThen Char.isDigit endPat)

/-- Embeds the regex `fin=.+?\.mp4` (`is_direct_download_url`, pattern 2); `.`
matches any character except a newline. -/
def finPat : List Char → Option Nat :=
  litThen "fin=".data (plusThen (fun c => c ≠ '\n') (litThen ".mp4".data endPat))

/-- Embeds the regex `fid=\d+\-\d+\-\d+` (`is_direct_download_url`,
pattern 3). -/
def fidPat : List Char → Option Nat :=
  litThen "fid=".data (plusThen Char.isDigit (litThen "-".data
    (plusThen Char.isDigit (litThen "-".data (plusThen Char.isDigit endPat)))))

/-- The `patterns` list of `is_direct_download_url` in source order. -/
def direct_patterns : List (List Char → Option Nat) :=
  [hostPat, sizePat, finPat, fidPat]

/-- Embeds `is_direct_download_url`: `all(re.search(p) for p in patterns[:1])
and any(re.search(p) for p in patterns[1:])`. -/
def is_direct_download_url (url : String) : Bool :=
  (direct_patterns.take 1).all (fun p => re_search p url.data)
    && (direct_patterns.drop 1).any (fun p => re_search p url.data)

/-- Hexadecimal digit value of an ASCII byte (as used by percent-decoding). -/
def hexVal (b : Nat) : Option Nat :=
  if 48 ≤ b ∧ b ≤ 57 then some (b - 48)
  else if 65 ≤ b ∧ b ≤ 70 then some (b - 55)
  else if 97 ≤ b ∧ b ≤ 102 then some (b - 87)
  else none

/-- Embeds `urllib.parse.unquote` at the character level: `%XX` escapes are
replaced by the character with code `XX`, invalid escapes are kept verbatim.
Multi-byte UTF-8 escape sequences (which CPython decodes jointly) are mapped
byte-per-byte here; emptiness and all ASCII behaviour agree with CPython. -/
def unquote_chars : List Char → List Char
  | [] => []
  | '%' :: h1 :: h2 :: rest =>
    match hexVal h1.toNat, hexVal h2.toNat with
    | some a, some b => Char.ofNat (16 * a + b) :: unquote_chars rest
    | _, _ => '%' :: unquote_chars (h1 :: h2 :: rest)
  | c :: rest => c :: unquote_chars rest

/-- The components of a parsed URL (the fields of Python's
`urllib.parse.urlparse` result that the code consumes). -/
structure UrlParts where
  scheme : String
  netloc : String
  path : String
  query : String
  fragment : String
deriving Repr, DecidableEq

/-- Characters allowed in a URL scheme (`urllib.parse.scheme_chars`). -/
def scheme_char (c : Char) : Bool :=
  c.isAlpha || c.isDigit || c = '+' || c = '-' || c = '.'

/-- Splits a character list at the first occurrence of `c`; models Python
`url.split(c, 1)` when `c` is present, identity with empty second part
otherwise. -/
def splitOnFirst (l : List Char) (c : Char) : List Char × List Char :=
  match l.findIdx? (· = c) with
  | some i => (l.take i, l.drop (i + 1))
  | none => (l, [])

/-- Embeds `urllib.parse.urlsplit`: removes tab/CR/LF, splits off the scheme
(first-colon prefix of scheme characters starting with a letter), the netloc
(after `//`, up to `/`, `?` or `#`), the fragment (after the first `#`) and
the query (after the first `?`).  The bracket-validation `ValueError` paths of
CPython are not modelled (the URLs this program builds never contain `[`). -/
def urlsplit (url : String) : UrlParts :=
  let u0 := url.data.filter (fun c => c ≠ '\t' && c ≠ '\r' && c ≠ '\n')
  let schemeRest : String × List Char :=
    match u0.findIdx? (· = ':') with
    | some i =>
      if 0 < i && (match u0.head? with | some c => c.isAlpha | none => false)
          && (u0.take i).all scheme_char then
        (String.mk ((u0.take i).map Char.toLower), u0.drop (i + 1))
      else ("", u0)
    | none => ("", u0)
  let u1 := schemeRest.2
  let netlocRest : String × List Char :=
    match u1 with
    | '/' :: '/' :: rest =>
      let nl := rest.takeWhile (fun c => c ≠ '/' && c ≠ '?' && c ≠ '#')
      (String.mk nl, rest.drop nl.length)
    | _ => ("", u1)
  let u2 := netlocRest.2
  let fragSplit := splitOnFirst u2 '#'
  let querySplit := splitOnFirst fragSplit.1 '?'
  { scheme := schemeRest.1, netloc := netlocRest.1, path := String.mk querySplit.1,
    query := String.mk querySplit.2, fragment := String.mk fragSplit.2 }

/-- Embeds `urllib.parse._splitparams`: strips a `;params` suffix from the
last path segment. -/
def split_params (path : List Char) : List Char :=
  let start := match (path.reverse.findIdx? (· = '/')) with
    | some j => path.length - 1 - j
    | none => 0
  match ((path.drop start).findIdx? (· = ';')) with
  | some i => path.take (start + i)
  | none => path

/-- Embeds `urllib.parse.urlparse` (on top of `urlsplit`, with `;params`
split off the path). -/
def urlparse (url : String) : UrlParts :=
  let p := urlsplit url
  if p.path.data.contains ';' then { p with path := String.mk (split_params p.path.data) } else p

/-- Splits a character list on every occurrence of `sep`, keeping empty
pieces; models Python `str.split(sep)` with a one-character separator. -/
def splitOnChar (sep : Char) : List Char → List (List Char)
  | [] => [[]]
  | c :: rest =>
    if c = sep then [] :: splitOnChar sep rest
    else
      match splitOnChar sep rest with
      | h :: t => (c :: h) :: t
      | [] => [[c]]

/-- Embeds `urllib.parse.parse_qsl` with default arguments: split the query on
`&`, skip empty fragments, skip names without `=`, skip empty values, then
`+`-to-space and percent-decode names and values. -/
def parse_qsl (query : String) : List (String × String) :=
  (splitOnChar '&' query.data).filterMap (fun nv =>
    if nv.isEmpty then none
    else
      match nv.findIdx? (· = '=') with
      | none => none
      | some i =>
        let name := nv.take i
        let value := nv.drop (i + 1)
        if value.isEmpty then none
        else
          some (String.mk (unquote_chars (name.map (fun c => if c = '+' then ' ' else c))),
            String.mk (unquote_chars (value.map (fun c => if c = '+' then ' ' else c)))))

/-- The `surl` query-parameter lookup of `extract_surl_parameter`: only
consulted when the query string is non-empty; `parse_qs(query)['surl'][0]` is
the value of the first `surl` pair. -/
def surlFromQuery (url : String) : Option String :=
  let p := urlparse url
  if p.query ≠ "" then ((parse_qsl p.query).find? (fun kv => kv.1 = "surl")).map (fun kv => kv.2)
  else none

/-- The `/`-separated components of a URL's parsed path
(`parsed_url.path.split('/')`). -/
def path_parts (url : String) : List (List Char) :=
  splitOnChar '/' (urlparse url).path.data

/-- Embeds `extract_surl_parameter`: the `surl` query parameter if present,
otherwise the third `/`-separated path component when the path has shape
`/s/<id>`. -/
def extract_surl_parameter (url : String) : Option String :=
  match surlFromQuery url with
  | some v => some v
  | none =>
    if (path_parts url).length ≥ 3 && (path_parts url).getD 1 [] = "s".data then
      some (String.mk ((path_parts url).getD 2 []))
    else none

/-- Substring containment, as Python's `needle in hay`. -/
def containsSub (needle : List Char) : List Char → Bool
  | [] => needle.isEmpty
  | c :: rest => needle.isPrefixOf (c :: rest) || containsSub needle rest

/-- Replacement of every (non-overlapping, left-to-right) occurrence of a
non-empty pattern, as Python `str.replace`; the fuel argument (initially the
input length, consumed one unit per character) keeps the recursion
structural. -/
def replaceSubAux (pat rep : List Char) : Nat → List Char → List Char
  | _, [] => []
  | 0, l => l
  | fuel + 1, c :: rest =>
    if !pat.isEmpty && pat.isPrefixOf (c :: rest) then
      rep ++ replaceSubAux pat rep fuel (rest.drop (pat.length - 1))
    else c :: replaceSubAux pat rep fuel rest

/-- Python `hay.replace(pat, rep)` for a non-empty pattern. -/
def replaceSub (pat rep hay : List Char) : List Char :=
  replaceSubAux pat rep hay.length hay

/-- Embeds `normalize_url`: scheme, netloc and path only, with
`teraboxapp.com` rewritten to `terabox.com`. -/
def normalize_url (url : String) : String :=
  let p := urlparse url
  let base_url := p.scheme ++ "://" ++ p.netloc ++ p.path
  if containsSub "teraboxapp.com".data base_url.data then
    String.mk (replaceSub "teraboxapp.com".data "terabox.com".data base_url.data)
  else base_url

/-- Python `str.split()` whitespace (ASCII part; the claims involve ASCII
text only). -/
def isPySpace (c : Char) : Bool :=
  c = ' ' || c = '\t' || c = '\n' || c = '\r' || c.toNat = 11 || c.toNat = 12

/-- The known Terabox domains of `extract_url_from_text`
(`telegram_utils.py`). -/
def terabox_domains : List String :=
  ["terabox.com", "teraboxapp.com", "1024terabox.com", "terabox.app", "www.terabox.app",
    "terabox.hnn.workers.dev", "dm.terabox.com", "d-jp02-cpt.terabox.com",
    "d-jp02-zen.terabox.com", "teraboxshare.com"]

/-- Embeds the regex `(https?://d\-[a-z0-9\-]+\.terabox\.com/file/[^\s]+)` of
`extract_url_from_text`. -/
def directUrlPat : List Char → Option Nat :=
  litThen "http".data (optCharThen 's' (litThen "://d-".data (plusThen hostClass
    (litThen ".terabox.com/file/".data (plusThen (fun c => !isPySpace c) endPat)))))

/-- The trailing-punctuation trimming loop of `extract_url_from_text`: each of
`.` `,` `!` `?` `)` is checked once, in this order, and removed if the token
currently ends with it. -/
def strip_trailing (url : String) : String :=
  String.mk (['.', ',', '!', '?', ')'].foldl
    (fun u c =>
      match u.getLast? with
      | some x => if x = c then u.dropLast else u
      | none => u)
    url.data)

/-- Splits a character list at every character satisfying `p`, keeping empty
pieces (filtered out by the caller, as Python's no-argument `str.split`
does). -/
def splitOnPred (p : Char → Bool) : List Char → List (List Char)
  | [] => [[]]
  | c :: rest =>
    if p c then [] :: splitOnPred p rest
    else
      match splitOnPred p rest with
      | h :: t => (c :: h) :: t
      | [] => [[c]]

/-- Embeds `extract_url_from_text`: first a regex search for a long-form
direct file URL anywhere in the text, then a scan of whitespace-delimited
words for one containing a known domain, trimmed of trailing punctuation. -/
def extract_url_from_text (text : String) : Option String :=
  match searchCapture directUrlPat text.data with
  | some m => some (String.mk m)
  | none =>
    let words := (splitOnPred isPySpace text.data).filter (fun w => !w.isEmpty)
    match words.find? (fun w => terabox_domains.any (fun d => containsSub d.data w)) with
    | some w => some (strip_trailing (String.mk w))
    | none => none

/-- Rounds `num / den` to the nearest integer, ties to even; the rounding
performed by CPython's `format(x, '.2f')` on the exactly-representable
quotients produced by `format_file_size` (power-of-two denominators). -/
def round_half_even (num den : Nat) : Nat :=
  let q := num / den
  let r := num % den
  if 2 * r < den then q
  else if 2 * r > den then q + 1
  else if q % 2 = 0 then q else q + 1

/-- Renders `n / den` with exactly two decimal places, as the f-string
`f"{n/den:.2f}"` does for the sizes and power-of-two denominators of
`format_file_size`. -/
def fmt_two_dec (n den : Nat) : String :=
  let scaled := round_half_even (n * 100) den
  let ip := scaled / 100
  let fp := scaled % 100
  toString ip ++ "." ++ (if fp < 10 then "0" ++ toString fp else toString fp)

/-- Embeds `format_file_size`: unit thresholds at 1024, 1024² and 1024³ with
two-decimal rendering for KB/MB/GB. -/
def format_file_size (size_bytes : Nat) : String :=
  if size_bytes < 1024 then toString size_bytes ++ " B"
  else if size_bytes < 1024 * 1024 then fmt_two_dec size_bytes 1024 ++ " KB"
  else if size_bytes < 1024 * 1024 * 1024 then fmt_two_dec size_bytes (1024 * 1024) ++ " MB"
  else fmt_two_dec size_bytes (1024 * 1024 * 1024) ++ " GB"

/-- Capture of `fn=([^&]+)` at one position: the group is the maximal
non-empty run of non-`&` characters after the literal (the pattern ends with
the greedy group, so maximal munch is the backtracking semantics). -/
def fn_group_at (s : List Char) : Option (List Char) :=
  if "fn=".data.isPrefixOf s then
    let g := (s.drop 3).takeWhile (fun c => c ≠ '&')
    if g.isEmpty then none else some g
  else none

/-- Capture of `fin=([^&]+)` at one position. -/
def fin_group_at (s : List Char) : Option (List Char) :=
  if "fin=".data.isPrefixOf s then
    let g := (s.drop 4).takeWhile (fun c => c ≠ '&')
    if g.isEmpty then none else some g
  else none

/-- Capture of `size=(\d+)` at one position: maximal non-empty digit run
after the literal. -/
def size_group_at (s : List Char) : Option (List Char) :=
  if "size=".data.isPrefixOf s then
    let g := (s.drop 5).takeWhile Char.isDigit
    if g.isEmpty then none else some g
  else none

/-- Capture of `surl=([^ &]+)` at one position (used by
`TeraboxFile.search` on the redirect-resolved URL). -/
def surl_group_at (s : List Char) : Option (List Char) :=
  if "surl=".data.isPrefixOf s then
    let g := (s.drop 5).takeWhile (fun c => c ≠ ' ' && c ≠ '&')
    if g.isEmpty then none else some g
  else none

/-- Embeds `extract_filename_from_url`: the percent-decoded `fn=` parameter,
else the percent-decoded `fin=` parameter, else nothing. -/
def extract_filename_from_url (url : String) : Option String :=
  match groupSearch fn_group_at url.data with
  | some g => some (String.mk (unquote_chars g))
  | none =>
    match groupSearch fin_group_at url.data with
    | some g => some (String.mk (unquote_chars g))
    | none => none

/-- Numeric value of a digit string, as Python `int` on a regex `\d+`
capture. -/
def natOfDigits (ds : List Char) : Nat :=
  ds.foldl (fun acc c => acc * 10 + (c.toNat - 48)) 0

/-- One entry of the upstream listing API's `list[]` (the JSON fields
consumed by `packData`); `size` is `none` when the field is absent, scalar
identifiers are modelled as the strings they are converted to. -/
structure RawItem where
  isdir : Nat
  path : String
  fs_id : String
  server_filename : String
  size : Option Nat
  thumbs_url3 : String

/-- Embeds `checkFileType`: category from the lower-cased filename
extension. -/
def checkFileType (name : String) : String :=
  let n := String.mk (name.data.map Char.toLower)
  if ([".jpg", ".jpeg", ".png", ".gif", ".webp"].any fun ext =>
      ext.data.isSuffixOf n.data) then "image"
  else if ([".mp4", ".mkv", ".avi", ".mov", ".flv", ".webm"].any fun ext =>
      ext.data.isSuffixOf n.data) then "video"
  else if ([".mp3", ".wav", ".flac", ".ogg", ".m4a"].any fun ext =>
      ext.data.isSuffixOf n.data) then "audio"
  else "other"

/-- The dictionary `packData` builds for each entry; `child` is populated
only for directories, `size`/`image` are empty (`none`/`""`) for
directories. -/
inductive FileInfo where
  | mk (is_dir : Nat) (path : String) (fs_id : String) (name : String) (typ : String)
      (size : Option Nat) (image : String) (child : Option (List FileInfo))

/-- The `fs_id` field of a packed entry. -/
def FileInfo.fs_id : FileInfo → String
  | .mk _ _ f _ _ _ _ _ => f

/-- The `name` field of a packed entry. -/
def FileInfo.name : FileInfo → String
  | .mk _ _ _ n _ _ _ _ => n

/-- The `size` field of a packed entry. -/
def FileInfo.size : FileInfo → Option Nat
  | .mk _ _ _ _ _ s _ _ => s

/-- The parsed JSON of the `shorturlinfo` response as far as `getMainFile`
reads it; `list := none` models a response without a `list` field. -/
structure MainResp where
  shareid : String
  uk : String
  list : Option (List RawItem)

/-- Outcome of the signing-API call in `getSign`: an exception (network or
JSON), a response with `ok` falsy, or a response carrying `sign` and
`timestamp`. -/
inductive SignOutcome where
  | exn
  | notOk
  | okWith (sign : String) (timestamp : String)
deriving Repr, DecidableEq

/-- The outcomes of all upstream interactions of one extraction run.
`redirect` is the final URL of the share-page GET when its status is 200
(`none` models an exception or a non-200 status); `mainFile` is the parsed
`shorturlinfo` JSON (`none` models an exception); `child` gives the packed
child listing per directory path (`none` models an exception inside
`getChildFile`, which `packData`'s handler turns into an empty listing);
`link1`/`link2` are the `downloadLink` fields of the two download-link
endpoints (`none` models an exception or a missing field, the JSON-null case
behaving as the empty string downstream); `relay` selects the
`random.choice` relay index. -/
structure Env where
  redirect : Option String
  mainFile : Option MainResp
  child : String → Option (List FileInfo)
  sign : SignOutcome
  link1 : Option String
  link2 : Option String
  relay : Nat

/-- Packs one raw item as `packData`'s loop body does; `none` models an
exception (a failing child-listing request) escaping to `packData`'s
handler. -/
def packDataItem (child : String → Option (List FileInfo)) (item : RawItem) :
    Option FileInfo :=
  if item.isdir ≠ 0 then
    match child item.path with
    | none => none
    | some ch =>
      some (FileInfo.mk item.isdir item.path item.fs_id item.server_filename "other" none ""
        (some ch))
  else
    some (FileInfo.mk item.isdir item.path item.fs_id item.server_filename
      (checkFileType item.server_filename) item.size item.thumbs_url3 none)

/-- Embeds `packData`: formats every entry of the `list` field; a missing
`list` field yields no entries, and an exception while processing yields
`[]` through the surrounding handler. -/
def packData (child : String → Option (List FileInfo)) :
    Option (List RawItem) → List FileInfo
  | none => []
  | some items =>
    match items.mapM (packDataItem child) with
    | none => []
    | some l => l

/-- The `self.result` dictionary of `TeraboxFile` (initially all-failed and
empty). -/
structure TBResult where
  status : String
  sign : String
  timestamp : String
  shareid : String
  uk : String
  list : List FileInfo

/-- The initial `TeraboxFile.result` value. -/
def initTBResult : TBResult :=
  { status := "failed", sign := "", timestamp := "", shareid := "", uk := "", list := [] }

/-- Embeds `TeraboxFile.getMainFile`: on a parsed response, packs the listing
and records share id, owner key and list only when the packed listing is
non-empty; an exception leaves the result untouched. -/
def TeraboxFile.getMainFile (env : Env) (res : TBResult) : TBResult :=
  match env.mainFile with
  | none => res
  | some resp =>
    let all_file := packData env.child resp.list
    if all_file.isEmpty then res
    else { res with shareid := resp.shareid, uk := resp.uk, list := all_file }

/-- Embeds `TeraboxFile.getSign`: records sign/timestamp and marks success on
an `ok` response; marks the result failed on a not-`ok` response or an
exception. -/
def TeraboxFile.getSign (env : Env) (res : TBResult) : TBResult :=
  match env.sign with
  | .exn => { res with status := "failed" }
  | .notOk => { res with status := "failed" }
  | .okWith s t => { res with sign := s, timestamp := t, status := "success" }

/-- Embeds `TeraboxFile.search`: `false` when the share-page GET fails or no
short identifier can be found (preferring a `surl=` match in the resolved
URL, falling back to `extract_surl_parameter` on the argument URL, whose
falsy results are rejected); otherwise runs `getMainFile` then `getSign` and
returns `true` with the accumulated result. -/
def TeraboxFile.search (env : Env) (url : String) : Bool × TBResult :=
  match env.redirect with
  | none => (false, initTBResult)
  | some finalUrl =>
    match
      (match groupSearch surl_group_at finalUrl.data with
        | some g => some (String.mk g)
        | none =>
          match extract_surl_parameter url with
          | some s => if s = "" then none else some s
          | none => none) with
    | none => (false, initTBResult)
    | some _ => (true, TeraboxFile.getSign env (TeraboxFile.getMainFile env initTBResult))

/-- The parameter dictionary `TeraboxLink.__init__` builds (every field
`str()`-converted). -/
structure LinkParams where
  shareid : String
  uk : String
  sign : String
  timestamp : String
  fs_id : String

/-- The `base_urls` relay pool of `TeraboxLink`. -/
def base_urls : List String :=
  ["plain-grass-58b2.comprehensiveaquamarine", "royal-block-6609.ninnetta7875",
    "bold-hall-f23e.7rochelle", "winter-thunder-0360.belitawhite",
    "fragrant-term-0df9.elviraeducational", "purple-glitter-924b.miguelalocal"]

/-- The UTF-8 encoding of one scalar value, written arithmetically. -/
def utf8EncodeCharNat (c : Char) : List Nat :=
  if c.toNat < 128 then [c.toNat]
  else if c.toNat < 2048 then [192 + c.toNat / 64, 128 + c.toNat % 64]
  else if c.toNat < 65536 then
    [224 + c.toNat / 4096, 128 + (c.toNat / 64) % 64, 128 + c.toNat % 64]
  else
    [240 + c.toNat / 262144, 128 + (c.toNat / 4096) % 64, 128 + (c.toNat / 64) % 64,
      128 + c.toNat % 64]

/-- The UTF-8 bytes of a string (Python `str.encode()`), as naturals. -/
def utf8Bytes (s : String) : List Nat :=
  s.data.flatMap utf8EncodeCharNat

/-- Bytes that `urllib.parse.quote` leaves unescaped with `safe=''`: ASCII
letters, digits and `_.-~`. -/
def is_unreserved (b : Nat) : Bool :=
  (65 ≤ b && b ≤ 90) || (97 ≤ b && b ≤ 122) || (48 ≤ b && b ≤ 57) ||
    b = 95 || b = 46 || b = 45 || b = 126

/-- Uppercase hexadecimal digit (as an ASCII byte), as used by `quote`'s
`%XX` escapes. -/
def hexDigitAscii (d : Nat) : Nat :=
  if d < 10 then 48 + d else 55 + d

/-- Percent-encodes one byte as `quote(..., safe='')` does. -/
def quote_byte (b : Nat) : List Nat :=
  if is_unreserved b then [b] else [37, hexDigitAscii (b / 16), hexDigitAscii (b % 16)]

/-- Embeds `urllib.parse.quote(s, safe='')` at the byte level. -/
def quote_all (bs : List Nat) : List Nat :=
  bs.flatMap quote_byte

/-- Percent-decoding at the byte level (`urllib.parse.unquote_to_bytes`):
valid `%XX` escapes become the byte `XX`, invalid escapes stay verbatim. -/
def unquote_bytes : List Nat → List Nat
  | [] => []
  | 37 :: h1 :: h2 :: rest =>
    match hexVal h1, hexVal h2 with
    | some a, some b => (16 * a + b) :: unquote_bytes rest
    | _, _ => 37 :: unquote_bytes (h1 :: h2 :: rest)
  | b :: rest => b :: unquote_bytes rest

/-- Character of a six-bit group in the URL-safe base64 alphabet
(`A`–`Z`, `a`–`z`, `0`–`9`, `-`, `_`). -/
def b64CharOf (n : Nat) : Char :=
  if n < 26 then Char.ofNat (65 + n)
  else if n < 52 then Char.ofNat (97 + (n - 26))
  else if n < 62 then Char.ofNat (48 + (n - 52))
  else if n = 62 then '-' else '_'

/-- Six-bit value of a URL-safe base64 character. -/
def b64ValOf (c : Char) : Option Nat :=
  if 65 ≤ c.toNat && c.toNat ≤ 90 then some (c.toNat - 65)
  else if 97 ≤ c.toNat && c.toNat ≤ 122 then some (c.toNat - 97 + 26)
  else if 48 ≤ c.toNat && c.toNat ≤ 57 then some (c.toNat - 48 + 52)
  else if c = '-' then some 62
  else if c = '_' then some 63
  else none

/-- Embeds `base64.urlsafe_b64encode` over byte lists, `=`-padded. -/
def urlsafe_b64encode : List Nat → List Char
  | [] => []
  | [a] => [b64CharOf (a / 4), b64CharOf ((a % 4) * 16), '=', '=']
  | [a, b] => [b64CharOf (a / 4), b64CharOf ((a % 4) * 16 + b / 16), b64CharOf ((b % 16) * 4), '=']
  | a :: b :: c :: rest =>
    b64CharOf (a / 4) :: b64CharOf ((a % 4) * 16 + b / 16) ::
      b64CharOf ((b % 16) * 4 + c / 64) :: b64CharOf (c % 64) :: urlsafe_b64encode rest

/-- URL-safe base64 decoding over byte lists (strict on padding); the inverse
direction of `urlsafe_b64encode` used to state the relay-wrapping
invertibility claim. -/
def urlsafe_b64decode : List Char → Option (List Nat)
  | [] => some []
  | c1 :: c2 :: c3 :: c4 :: rest =>
    match b64ValOf c1, b64ValOf c2 with
    | some v1, some v2 =>
      if c3 = '=' then
        if c4 = '=' && rest.isEmpty && v2 % 16 = 0 then some [v1 * 4 + v2 / 16] else none
      else
        match b64ValOf c3 with
        | some v3 =>
          if c4 = '=' then
            if rest.isEmpty && v3 % 4 = 0 then some [v1 * 4 + v2 / 16, (v2 % 16) * 16 + v3 / 4]
            else none
          else
            match b64ValOf c4 with
            | some v4 =>
              (urlsafe_b64decode rest).map
                (fun tl =>
                  (v1 * 4 + v2 / 16) :: ((v2 % 16) * 16 + v3 / 4) :: ((v3 % 4) * 64 + v4) :: tl)
            | none => none
        | none => none
    | _, _ => none
  | _ => none

/-- Embeds `TeraboxLink.wrap_url`: percent-encode the URL, base64-encode the
result and route it through a relay host; the `random.choice` of the relay is
modelled by the explicit index `relay`. -/
def TeraboxLink.wrap_url (relay : Nat) (original_url : String) : String :=
  let selected_base := base_urls.getD (relay % base_urls.length) ""
  let b64_encoded := urlsafe_b64encode (quote_all (utf8Bytes original_url))
  "https://" ++ selected_base ++ ".workers.dev/?url=" ++ String.mk b64_encoded

/-- The `self.result` of `TeraboxLink` after `generate`: status plus the
`download_link` mapping (a key is present iff its attempt succeeded). -/
structure LinkResult where
  status : String
  url_1 : Option String
  url_2 : Option String

/-- Embeds `TeraboxLink.generate`: the first endpoint's `downloadLink` is
stored verbatim as `url_1`, the second's is relay-wrapped as `url_2`; each
attempt's exception is caught independently; the status becomes `success`
iff the mapping is non-empty. -/
def TeraboxLink.generate (env : Env) (_params : LinkParams) : LinkResult :=
  let dl1 := env.link1
  let dl2 := env.link2.map (TeraboxLink.wrap_url env.relay)
  { status := if dl1.isSome || dl2.isSome then "success" else "failed",
    url_1 := dl1, url_2 := dl2 }

/-- The dictionary `extract_terabox_download_link` returns: exactly the keys
`success`, `url`, `filename`, `size` on success and `success`, `error` on
failure (absent keys are `none`). -/
structure ExtractionResult where
  success : Bool
  url : Option String := none
  filename : Option String := none
  size : Option String := none
  error : Option String := none
deriving Repr, DecidableEq

/-- The success dictionary `{"success": True, "url": u, "filename": f,
"size": s}`. -/
def mkSuccess (u f s : String) : ExtractionResult :=
  { success := true, url := some u, filename := some f, size := some s }

/-- The failure dictionary `{"success": False, "error": e}`. -/
def mkFailure (e : String) : ExtractionResult :=
  { success := false, error := some e }

/-- One progress report: `if progress_callback: progress_callback(p, label)`.
A callback is a function that may raise (modelled by `Except`); absence of a
callback reports nothing. -/
def report (cb : Option (Nat → String → Except String Unit)) (p : Nat) (label : String) :
    Except String Unit :=
  match cb with
  | none => Except.ok ()
  | some f => f p label

/-- The body of `extract_terabox_download_link` inside its `try`: an
uncaught exception (only a raising progress callback can produce one in this
model, every upstream failure being caught further down) surfaces as
`Except.error`. -/
def extract_body (url : String) (cb : Option (Nat → String → Except String Unit))
    (env : Env) : Except String ExtractionResult :=
  match report cb 5 "Starting extraction" with
  | .error e => .error e
  | .ok _ =>
    if is_direct_download_url url then
      match report cb 40 "Direct URL detected" with
      | .error e => .error e
      | .ok _ =>
        let filename :=
          match extract_filename_from_url url with
          | some f => if f = "" then "TeraboxFile" else f
          | none => "TeraboxFile"
        let file_size :=
          match groupSearch size_group_at url.data with
          | some ds => format_file_size (natOfDigits ds)
          | none => "Unknown size"
        match report cb 60 "URL processed" with
        | .error e => .error e
        | .ok _ => .ok (mkSuccess url filename file_size)
    else
      match report cb 10 "URL normalized" with
      | .error e => .error e
      | .ok _ =>
        match TeraboxFile.search env (normalize_url url) with
        | (false, _) => .ok (mkFailure "Failed to process the Terabox URL")
        | (true, tf) =>
          match report cb 30 "File information extracted" with
          | .error e => .error e
          | .ok _ =>
            if tf.status ≠ "success" then .ok (mkFailure "Could not extract sign parameter")
            else
              match tf.list with
              | [] => .ok (mkFailure "No files found in the Terabox link")
              | file_info :: _ =>
                match report cb 50 "Generating download link" with
                | .error e => .error e
                | .ok _ =>
                  match report cb 70 "Download link generated" with
                  | .error e => .error e
                  | .ok _ =>
                    if (TeraboxLink.generate env
                        ⟨tf.shareid, tf.uk, tf.sign, tf.timestamp, file_info.fs_id⟩).status
                        ≠ "success" then
                      .ok (mkFailure "Failed to generate download links")
                    else
                      match
                        (match (TeraboxLink.generate env
                            ⟨tf.shareid, tf.uk, tf.sign, tf.timestamp,
                              file_info.fs_id⟩).url_1 with
                          | some u =>
                            if u = "" then
                              (TeraboxLink.generate env
                                ⟨tf.shareid, tf.uk, tf.sign, tf.timestamp,
                                  file_info.fs_id⟩).url_2
                            else some u
                          | none =>
                            (TeraboxLink.generate env
                              ⟨tf.shareid, tf.uk, tf.sign, tf.timestamp,
                                file_info.fs_id⟩).url_2) with
                      | none => .ok (mkFailure "No download link generated")
                      | some du =>
                        if du = "" then .ok (mkFailure "No download link generated")
                        else
                          match report cb 80 "Ready for download" with
                          | .error e => .error e
                          | .ok _ =>
                            .ok (mkSuccess du file_info.name
                              (match file_info.size with
                                | some n =>
                                  if n = 0 then "Unknown size" else format_file_size n
                                | none => "Unknown size"))

/-- Embeds `extract_terabox_download_link`: the `try` body with the blanket
`except` that converts any escaped exception into the failure dictionary. -/
def extract_terabox_download_link (url : String)
    (cb : Option (Nat → String → Except String Unit)) (env : Env) : ExtractionResult :=
  match extract_body url cb env with
  | .ok r => r
  | .error e => mkFailure ("Error processing Terabox link: " ++ e)

/-- Embeds the bot's `update_progress` callback (`telegram_utils.py`): the
message-edit call (modelled by `edit`, partially applied to chat and message
id) is wrapped in `try/except`, so the callback itself never raises. -/
def update_progress (edit : Nat → Except String Unit) (progress : Nat) (_step : String) :
    Except String Unit :=
  match edit progress with
  | .ok _ => Except.ok ()
  | .error _ => Except.ok ()

/-- The direct download URL of the end-to-end scenario of the spec. -/
def sample_direct_url : String :=
  "https://d-jp02-cpt.terabox.com/file/xyz?fn=movie.mp4&size=52428800"

/-- An environment in which every upstream interaction fails (the direct
path consults none of them). -/
def trivial_env : Env :=
  { redirect := none, mainFile := none, child := fun _ => none, sign := SignOutcome.exn,
    link1 := none, link2 := none, relay := 0 }

/-- A listing entry for concrete runs: a plain (non-directory) video file. -/
def sample_item : RawItem :=
  { isdir := 0, path := "/v.mp4", fs_id := "789", server_filename := "v.mp4",
    size := some 1000, thumbs_url3 := "" }

/-- A `shorturlinfo` response with one file, for concrete runs. -/
def sample_resp : MainResp :=
  { shareid := "123", uk := "456", list := some [sample_item] }

/-- An environment in which the share page resolves, the listing succeeds
with one file, but the signing API reports not-ok. -/
def sign_fail_env : Env :=
  { redirect := some "https://www.terabox.com/sharing/link?surl=abc",
    mainFile := some sample_resp, child := fun _ => none, sign := SignOutcome.notOk,
    link1 := none, link2 := none, relay := 0 }

/-- A share URL (not a direct download URL) for concrete runs. -/
def sample_share_url : String := "https://terabox.com/s/abc"

/-- C1: a URL is a direct download URL iff it matches the download-hostname
regex and at least one of the `size=`, `fin=...mp4`, `fid=` triplet patterns;
a hostname match alone is never sufficient. -/
theorem is_direct_download_url_spec (url : String) :
    is_direct_download_url url = true ↔
      (re_search hostPat url.data = true ∧
        (re_search sizePat url.data = true ∨ re_search finPat url.data = true ∨
          re_search fidPat url.data = true)) := by
  simp only [is_direct_download_url, direct_patterns, List.take, List.drop, List.all_cons,
    List.all_nil, List.any_cons, List.any_nil, Bool.and_eq_true, Bool.or_eq_true, Bool.and_true,
    Bool.or_false]


/-- Every run of the orchestrator body ends in an uncaught exception, a
success dictionary or a failure dictionary. -/
theorem extract_body_shape (url : String) (cb : Option (Nat → String → Except String Unit))
    (env : Env) :
    (∃ e, extract_body url cb env = .error e) ∨
    (∃ u f s, extract_body url cb env = .ok (mkSuccess u f s)) ∨
    (∃ e, extract_body url cb env = .ok (mkFailure e)) := by
  unfold extract_body
  repeat' split
  all_goals
    first
    | exact Or.inl ⟨_, rfl⟩
    | exact Or.inr (Or.inl ⟨_, _, _, rfl⟩)
    | exact Or.inr (Or.inr ⟨_, rfl⟩)

/-- C2: for every input URL, progress callback and environment of upstream
outcomes, `extract_terabox_download_link` returns a dictionary that is either
`{success: true, url, filename, size}` or `{success: false, error}`; every
lower-layer exception is caught and converted to the failure form, so the
orchestrator never raises. -/
theorem extract_never_raises (url : String)
    (cb : Option (Nat → String → Except String Unit)) (env : Env) :
    ((extract_terabox_download_link url cb env).success = true ∧
      (∃ u, (extract_terabox_download_link url cb env).url = some u) ∧
      (∃ f, (extract_terabox_download_link url cb env).filename = some f) ∧
      (∃ s, (extract_terabox_download_link url cb env).size = some s) ∧
      (extract_terabox_download_link url cb env).error = none) ∨
    ((extract_terabox_download_link url cb env).success = false ∧
      (∃ e, (extract_terabox_download_link url cb env).error = some e) ∧
      (extract_terabox_download_link url cb env).url = none ∧
      (extract_terabox_download_link url cb env).filename = none ∧
      (extract_terabox_download_link url cb env).size = none) := by
  unfold extract_terabox_download_link
  rcases extract_body_shape url cb env with ⟨e, h⟩ | ⟨u, f, s, h⟩ | ⟨e, h⟩ <;>
    rw [h] <;> simp [mkSuccess, mkFailure]

/-- C5: the direct URL
`https://d-jp02-cpt.terabox.com/file/xyz?fn=movie.mp4&size=52428800` yields
`{success: true, url: <same url>, filename: "movie.mp4", size: "50.00 MB"}`
for every environment of upstream outcomes — the direct path consults neither
the share resolver nor the link generator — with the filename taken
percent-decoded from the `fn=` parameter and the size formatted from the
`size=` parameter. -/
theorem direct_url_scenario (env : Env) :
    extract_terabox_download_link sample_direct_url none env =
      mkSuccess sample_direct_url "movie.mp4" "50.00 MB" ∧
    is_direct_download_url sample_direct_url = true ∧
    extract_filename_from_url sample_direct_url = some "movie.mp4" := by
  exact ⟨rfl, by decide, by decide⟩

/-- C7 counterexample: with the direct scenario URL, a progress callback
whose invocation raises flips the extraction outcome from success to failure
— the exception is not swallowed with extraction proceeding unchanged, as the
claim states. -/
theorem raising_callback_changes_outcome :
    (extract_terabox_download_link sample_direct_url
      (some fun _ _ => Except.ok ()) trivial_env).success = true ∧
    (extract_terabox_download_link sample_direct_url
      (some fun _ _ => Except.error "edit failed") trivial_env).success = false := by
  decide

/-- C7 (amended): an exception raised by the progress callback never
propagates out of `extract_terabox_download_link` — the blanket handler
converts it to `{success: false, error: "Error processing Terabox link: …"}`,
aborting the extraction rather than letting it proceed; the bot's own
`update_progress` callback swallows its errors internally and therefore never
alters the outcome relative to a non-raising callback. -/
theorem raising_callback_converted (url : String) (env : Env) (e : String)
    (edit : Nat → Except String Unit) :
    extract_terabox_download_link url (some fun _ _ => Except.error e) env =
      mkFailure ("Error processing Terabox link: " ++ e) ∧
    extract_terabox_download_link url (some (update_progress edit)) env =
      extract_terabox_download_link url (some fun _ _ => Except.ok ()) env := by
  constructor
  · rfl
  · have h : update_progress edit = fun _ _ => Except.ok () := by
      funext p s
      unfold update_progress
      cases edit p <;> rfl
    rw [h]

/-- C8: the reference values of `format_file_size` and its unit selection by
the thresholds 1024, 1024² and 1024³, with two-decimal rendering for
KB/MB/GB. -/
theorem format_file_size_spec :
    (format_file_size 0 = "0 B" ∧ format_file_size 1023 = "1023 B" ∧
      format_file_size 1024 = "1.00 KB" ∧ format_file_size 1048576 = "1.00 MB" ∧
      format_file_size 1073741824 = "1.00 GB") ∧
    ∀ n : Nat,
      (n < 1024 → format_file_size n = toString n ++ " B") ∧
      (1024 ≤ n → n < 1024 * 1024 →
        format_file_size n = fmt_two_dec n 1024 ++ " KB") ∧
      (1024 * 1024 ≤ n → n < 1024 * 1024 * 1024 →
        format_file_size n = fmt_two_dec n (1024 * 1024) ++ " MB") ∧
      (1024 * 1024 * 1024 ≤ n →
        format_file_size n = fmt_two_dec n (1024 * 1024 * 1024) ++ " GB") := by
  refine ⟨by decide, fun n => ⟨?_, ?_, ?_, ?_⟩⟩
  · intro h
    simp only [format_file_size]
    rw [if_pos h]
  · intro h1 h2
    simp only [format_file_size]
    rw [if_neg (by omega), if_pos h2]
  · intro h1 h2
    simp only [format_file_size]
    rw [if_neg (by omega), if_neg (by omega), if_pos h2]
  · intro h
    simp only [format_file_size]
    rw [if_neg (by omega), if_neg (by omega), if_neg (by omega)]

/-- Witness for C8 at a concrete size in the KB range. -/
theorem format_file_size_spec_witness :
    format_file_size 2048 = fmt_two_dec 2048 1024 ++ " KB" :=
  (format_file_size_spec.2 2048).2.1 (by decide) (by decide)

/-- The `getSign` step marks the result failed whenever the signing API is
unreachable or reports not-ok. -/
theorem getSign_status_failed (env : Env) (res : TBResult)
    (h : env.sign = SignOutcome.exn ∨ env.sign = SignOutcome.notOk) :
    (TeraboxFile.getSign env res).status = "failed" := by
  rcases h with h | h <;> simp [TeraboxFile.getSign, h]

/-- With a failing signing step, every `search` run ends with a failed
status, whatever its other outcomes. -/
theorem search_status_failed (env : Env)
    (h : env.sign = SignOutcome.exn ∨ env.sign = SignOutcome.notOk) (u : String) :
    (TeraboxFile.search env u).2.status = "failed" := by
  unfold TeraboxFile.search
  repeat' split
  · rfl
  · rfl
  · exact getSign_status_failed env _ h

/-- The share-flow body cannot hand a success dictionary to the handler when
the resolver's status is not `success` for the normalized URL. -/
theorem extract_body_ok_without_sign (url : String)
    (cb : Option (Nat → String → Except String Unit)) (env : Env)
    (hdirect : is_direct_download_url url = false)
    (hfail : (TeraboxFile.search env (normalize_url url)).2.status ≠ "success")
    (r : ExtractionResult) (h : extract_body url cb env = Except.ok r) :
    r.success = false := by
  unfold extract_body at h
  simp only [hdirect, Bool.false_eq_true, if_false] at h
  repeat' split at h
  all_goals first
    | injection h with h
    | injection h
  all_goals subst r
  all_goals simp_all [mkFailure, mkSuccess]

/-- The share flow cannot produce a success result when the resolver's status
is not `success` for the normalized URL. -/
theorem extract_fails_without_sign (url : String)
    (cb : Option (Nat → String → Except String Unit)) (env : Env)
    (hdirect : is_direct_download_url url = false)
    (hfail : (TeraboxFile.search env (normalize_url url)).2.status ≠ "success") :
    (extract_terabox_download_link url cb env).success = false := by
  unfold extract_terabox_download_link
  cases h : extract_body url cb env with
  | error e => simp [mkFailure]
  | ok r => exact extract_body_ok_without_sign url cb env hdirect hfail r h

/-- The share-flow body cannot hand a success dictionary to the handler when
both download-link attempts fail. -/
theorem extract_body_ok_without_link (url : String)
    (cb : Option (Nat → String → Except String Unit)) (env : Env)
    (hdirect : is_direct_download_url url = false)
    (hl1 : env.link1 = none) (hl2 : env.link2 = none)
    (r : ExtractionResult) (h : extract_body url cb env = Except.ok r) :
    r.success = false := by
  unfold extract_body at h
  simp only [hdirect, Bool.false_eq_true, if_false] at h
  repeat' split at h
  all_goals first
    | injection h with h
    | injection h
  all_goals subst r
  all_goals simp_all [mkFailure, mkSuccess, TeraboxLink.generate]

/-- The share flow cannot produce a success result when both download-link
attempts fail. -/
theorem extract_fails_without_link (url : String)
    (cb : Option (Nat → String → Except String Unit)) (env : Env)
    (hdirect : is_direct_download_url url = false)
    (hl1 : env.link1 = none) (hl2 : env.link2 = none) :
    (extract_terabox_download_link url cb env).success = false := by
  unfold extract_terabox_download_link
  cases h : extract_body url cb env with
  | error e => simp [mkFailure]
  | ok r => exact extract_body_ok_without_link url cb env hdirect hl1 hl2 r h

/-- C3: whenever the listing step succeeds with a non-empty file list but the
signing step fails (signing API unreachable or not-ok), the resolver's status
is `failed` and the orchestrator returns a failure result for every
non-direct URL; conversely, resolver status `success` requires a successful
signing outcome. -/
theorem sign_failure_dominates :
    (∀ (env : Env) (resp : MainResp), env.mainFile = some resp →
      (packData env.child resp.list).isEmpty = false →
      (env.sign = SignOutcome.exn ∨ env.sign = SignOutcome.notOk) →
      (∀ u, (TeraboxFile.search env u).2.status = "failed") ∧
      (∀ url cb, is_direct_download_url url = false →
        (extract_terabox_download_link url cb env).success = false)) ∧
    (∀ (env : Env) (v : String), (TeraboxFile.search env v).2.status = "success" →
      ∃ s t, env.sign = SignOutcome.okWith s t) := by
  constructor
  · intro env resp _ _ hsign
    refine ⟨search_status_failed env hsign, fun url cb hdirect => ?_⟩
    apply extract_fails_without_sign url cb env hdirect
    rw [search_status_failed env hsign (normalize_url url)]
    decide
  · intro env v h
    cases henv : env.sign with
    | exn =>
      rw [search_status_failed env (Or.inl henv) v] at h
      exact absurd h (by decide)
    | notOk =>
      rw [search_status_failed env (Or.inr henv) v] at h
      exact absurd h (by decide)
    | okWith s t => exact ⟨s, t, rfl⟩

/-- Witness for C3: a concrete environment in which the listing succeeds
with one file but the signing API reports not-ok. -/
theorem sign_failure_dominates_witness :
    sign_fail_env.mainFile = some sample_resp ∧
    (packData sign_fail_env.child sample_resp.list).isEmpty = false ∧
    (sign_fail_env.sign = SignOutcome.exn ∨ sign_fail_env.sign = SignOutcome.notOk) ∧
    (TeraboxFile.search sign_fail_env sample_share_url).2.status = "failed" ∧
    (extract_terabox_download_link sample_share_url none sign_fail_env).success = false :=
  ⟨rfl, by decide, Or.inr rfl,
    (sign_failure_dominates.1 sign_fail_env sample_resp rfl (by decide)
      (Or.inr rfl)).1 sample_share_url,
    (sign_failure_dominates.1 sign_fail_env sample_resp rfl (by decide)
      (Or.inr rfl)).2 sample_share_url none (by decide)⟩

/-- C4: link generation succeeds exactly when at least one of `url_1`/`url_2`
is present; the two attempts are independent (`url_1` mirrors the first
endpoint's outcome and `url_2` the wrapped second outcome, each regardless of
the other); and when both attempts fail the orchestrator returns a failure
result for every non-direct URL. -/
theorem generate_success_iff_link :
    (∀ (env : Env) (ps : LinkParams),
      ((TeraboxLink.generate env ps).status = "success" ↔
        ((TeraboxLink.generate env ps).url_1.isSome = true ∨
          (TeraboxLink.generate env ps).url_2.isSome = true)) ∧
      (TeraboxLink.generate env ps).url_1 = env.link1 ∧
      (TeraboxLink.generate env ps).url_2 = env.link2.map (TeraboxLink.wrap_url env.relay)) ∧
    (∀ (env : Env), env.link1 = none → env.link2 = none →
      ∀ url cb, is_direct_download_url url = false →
        (extract_terabox_download_link url cb env).success = false) := by
  constructor
  · intro env ps
    refine ⟨?_, rfl, rfl⟩
    unfold TeraboxLink.generate
    cases env.link1 <;> cases env.link2 <;> simp
  · intro env hl1 hl2 url cb hdirect
    exact extract_fails_without_link url cb env hdirect hl1 hl2

/-- Witness for C4: a concrete environment in which both download-link
attempts fail drives the orchestrator to a failure result. -/
theorem generate_success_iff_link_witness :
    trivial_env.link1 = none ∧ trivial_env.link2 = none ∧
    is_direct_download_url sample_share_url = false ∧
    (extract_terabox_download_link sample_share_url none trivial_env).success = false ∧
    ((TeraboxLink.generate trivial_env ⟨"1", "2", "s", "t", "f"⟩).status = "success" ↔
      ((TeraboxLink.generate trivial_env ⟨"1", "2", "s", "t", "f"⟩).url_1.isSome = true ∨
        (TeraboxLink.generate trivial_env ⟨"1", "2", "s", "t", "f"⟩).url_2.isSome = true)) :=
  ⟨rfl, rfl, by decide,
    generate_success_iff_link.2 trivial_env rfl rfl sample_share_url none (by decide),
    (generate_success_iff_link.1 trivial_env ⟨"1", "2", "s", "t", "f"⟩).1⟩

/-- C6 counterexample: a token ending in `??` keeps a trailing `?` after
trimming (each trim character is checked only once), so the claim that a
trailing `?` never survives into the extracted token is false. -/
theorem trailing_question_survives :
    extract_url_from_text "check this out https://terabox.com/s/1AbC?? cool" =
      some "https://terabox.com/s/1AbC?" ∧
    "https://terabox.com/s/1AbC?".data.getLast? = some '?' := by
  exact ⟨by decide, by decide⟩

/-- C6 (amended): the scenario holds — the input
`"check this out https://terabox.com/s/1AbC? cool"` yields the token
`https://terabox.com/s/1AbC` and the identifier `1AbC`, and only the
characters `.` `,` `!` `?` `)` are stripped, in one pass from the end — but
each of the five characters is removed at most once in that fixed order, so a
single trailing `?` is removed while a repeated `??` keeps one `?`. -/
theorem url_token_trimming_amended :
    (extract_url_from_text "check this out https://terabox.com/s/1AbC? cool").bind
        extract_surl_parameter = some "1AbC" ∧
    extract_url_from_text "check this out https://terabox.com/s/1AbC? cool" =
      some "https://terabox.com/s/1AbC" ∧
    strip_trailing "https://terabox.com/s/1AbC?" = "https://terabox.com/s/1AbC" ∧
    strip_trailing "x??" = "x?" := by
  exact ⟨by decide, by decide, by decide, by decide⟩

/-- Percent-decoding never turns a non-empty string empty (each step of
`unquote_chars` emits at least one character). -/
theorem unquote_chars_cons (c : Char) (rest : List Char) :
    ∃ a as, unquote_chars (c :: rest) = a :: as := by
  unfold unquote_chars
  repeat' split
  all_goals first
    | exact ⟨_, _, rfl⟩
    | simp_all

/-- Every value produced by `parse_qsl` is non-empty: pairs with an empty
raw value are skipped, and percent-decoding preserves non-emptiness. -/
theorem parse_qsl_value_ne_empty (q : String) (p : String × String)
    (hp : p ∈ parse_qsl q) : p.2 ≠ "" := by
  simp only [parse_qsl, List.mem_filterMap] at hp
  obtain ⟨nv, _, hf⟩ := hp
  split at hf
  · exact absurd hf (by simp)
  · split at hf
    · exact absurd hf (by simp)
    · rename_i i hi
      split at hf
      · exact absurd hf (by simp)
      · rename_i hval
        cases hf
        intro hcontra
        have hvl : nv.drop (i + 1) ≠ [] := by
          intro hnil
          rw [hnil] at hval
          exact hval rfl
        obtain ⟨v, vs, hvs⟩ : ∃ v vs, nv.drop (i + 1) = v :: vs := by
          cases hd : nv.drop (i + 1) with
          | nil => exact absurd hd hvl
          | cons v vs => exact ⟨v, vs, rfl⟩
        have : ((nv.drop (i + 1)).map fun c => if c = '+' then ' ' else c) =
            (if v = '+' then ' ' else v) :: (vs.map fun c => if c = '+' then ' ' else c) := by
          rw [hvs]; rfl
        rw [this] at hcontra
        obtain ⟨a, as, ha⟩ := unquote_chars_cons (if v = '+' then ' ' else v)
          (vs.map fun c => if c = '+' then ' ' else c)
        rw [ha] at hcontra
        exact absurd (congrArg String.data hcontra) (by simp)

/-- A `surl` value taken from the query string is never empty. -/
theorem surlFromQuery_ne_empty (url : String) (v : String)
    (h : surlFromQuery url = some v) : v ≠ "" := by
  simp only [surlFromQuery] at h
  split at h
  · obtain ⟨kv, hfind, hv⟩ := Option.map_eq_some'.mp h
    have hmem := List.mem_of_find?_eq_some hfind
    have := parse_qsl_value_ne_empty _ kv hmem
    rw [hv] at this
    exact this
  · exact absurd h (by simp)

/-- C9 counterexample: `extract_surl_parameter` returns the empty string for
the URL `https://terabox.com/s/` (path `/s/` splits into `['', 's', '']`),
so the extracted identifier is not always non-empty. -/
theorem surl_empty_counterexample :
    extract_surl_parameter "https://terabox.com/s/" = some "" := by decide

/-- C9 (amended): an identifier extracted from the `surl` query parameter is
always non-empty; an empty identifier can arise only from the `/s/<id>` path
shape, when the path segment after `/s/` is itself empty. -/
theorem surl_nonempty_amended (url : String) (s : String)
    (h : extract_surl_parameter url = some s) (hs : s = "") :
    surlFromQuery url = none ∧ (path_parts url).length ≥ 3 ∧
    (path_parts url).getD 1 [] = "s".data ∧ (path_parts url).getD 2 [] = [] := by
  cases hq : surlFromQuery url with
  | some v =>
    have hv : some v = some s := by
      rw [← h]
      unfold extract_surl_parameter
      rw [hq]
    rw [Option.some.inj hv] at hq
    exact absurd hs (surlFromQuery_ne_empty url s hq)
  | none =>
    have hred : (if (decide ((path_parts url).length ≥ 3) &&
          decide ((path_parts url).getD 1 [] = "s".data)) = true then
        some (String.mk ((path_parts url).getD 2 [])) else none) = some s := by
      rw [← h]
      unfold extract_surl_parameter
      rw [hq]
    by_cases hcond : (decide ((path_parts url).length ≥ 3) &&
        decide ((path_parts url).getD 1 [] = "s".data)) = true
    · rw [if_pos hcond] at hred
      have hdata : String.mk ((path_parts url).getD 2 []) = s := Option.some.inj hred
      rw [← hdata] at hs
      have hnil : (path_parts url).getD 2 [] = [] := congrArg String.data hs
      simp only [Bool.and_eq_true, decide_eq_true_eq] at hcond
      exact ⟨rfl, hcond.1, hcond.2, hnil⟩
    · rw [if_neg hcond] at hred
      exact absurd hred (by simp)

/-- Witness for C9 (amended) at the URL `https://terabox.com/s/`. -/
theorem surl_nonempty_amended_witness :
    extract_surl_parameter "https://terabox.com/s/" = some "" ∧
    surlFromQuery "https://terabox.com/s/" = none ∧
    (path_parts "https://terabox.com/s/").getD 2 [] = [] :=
  ⟨by decide,
    (surl_nonempty_amended "https://terabox.com/s/" "" (by decide) rfl).1,
    (surl_nonempty_amended "https://terabox.com/s/" "" (by decide) rfl).2.2.2⟩

/-- Scalar values are below 0x110000, so every UTF-8 byte is below 256. -/
theorem utf8Bytes_lt (s : String) : ∀ b ∈ utf8Bytes s, b < 256 := by
  intro b hb
  simp only [utf8Bytes, List.mem_flatMap] at hb
  obtain ⟨c, _, hbc⟩ := hb
  have hc : c.toNat < 1114112 := by
    have he : c.toNat = c.val.toNat := rfl
    rcases c.valid with h | ⟨_, h⟩ <;> omega
  unfold utf8EncodeCharNat at hbc
  repeat' split at hbc
  all_goals simp only [List.mem_cons, List.not_mem_nil, or_false] at hbc
  all_goals omega

/-- The uppercase-hex digit of a value below 16 is an ASCII byte. -/
theorem hexDigitAscii_lt (d : Nat) (h : d < 16) : hexDigitAscii d < 256 := by
  unfold hexDigitAscii
  split <;> omega

/-- Percent-encoding produces bytes below 256 from bytes below 256. -/
theorem quote_all_lt (bs : List Nat) (h : ∀ b ∈ bs, b < 256) :
    ∀ x ∈ quote_all bs, x < 256 := by
  intro x hx
  simp only [quote_all, List.mem_flatMap] at hx
  obtain ⟨b, hb, hxb⟩ := hx
  have hblt := h b hb
  unfold quote_byte at hxb
  repeat' split at hxb
  all_goals simp only [List.mem_cons, List.not_mem_nil, or_false] at hxb
  · omega
  · rcases hxb with h | h | h
    · omega
    · subst h
      exact hexDigitAscii_lt _ (by omega)
    · subst h
      exact hexDigitAscii_lt _ (by omega)

/-- The uppercase-hex digit round-trips through `hexVal`. -/
theorem hexVal_hexDigitAscii (d : Nat) (h : d < 16) :
    hexVal (hexDigitAscii d) = some d := by
  unfold hexVal hexDigitAscii
  by_cases hd : d < 10
  · rw [if_pos hd, if_pos (by omega)]
    congr 1
    omega
  · rw [if_neg hd, if_neg (by omega), if_pos (by omega)]
    congr 1
    omega

/-- Unreserved bytes are never the escape byte `%`. -/
theorem is_unreserved_ne_37 (b : Nat) (h : is_unreserved b = true) : b ≠ 37 := by
  intro hb
  subst hb
  exact absurd h (by decide)

/-- A non-escape head byte passes through `unquote_bytes` unchanged. -/
theorem unquote_bytes_cons_ne (b : Nat) (l : List Nat) (hb : b ≠ 37) :
    unquote_bytes (b :: l) = b :: unquote_bytes l := by
  rw [unquote_bytes.eq_def]
  split <;> simp_all

/-- A valid escape triple at the head of `unquote_bytes` decodes to its
byte. -/
theorem unquote_bytes_escape (x y : Nat) (l : List Nat) (hx : x < 16) (hy : y < 16) :
    unquote_bytes (37 :: hexDigitAscii x :: hexDigitAscii y :: l) =
      (16 * x + y) :: unquote_bytes l := by
  rw [unquote_bytes.eq_def]
  simp [hexVal_hexDigitAscii x hx, hexVal_hexDigitAscii y hy]

/-- Percent-decoding inverts percent-encoding on byte strings
(`unquote(quote(s, safe='')) == s`). -/
theorem quote_unquote (bs : List Nat) (h : ∀ b ∈ bs, b < 256) :
    unquote_bytes (quote_all bs) = bs := by
  induction bs with
  | nil => rfl
  | cons b rest ih =>
    have hb : b < 256 := h b (by simp)
    have hrest := ih (fun x hx => h x (by simp [hx]))
    simp only [quote_all, List.flatMap_cons] at *
    by_cases hu : is_unreserved b
    · rw [show quote_byte b = [b] from by simp [quote_byte, hu]]
      simp only [List.cons_append, List.nil_append]
      rw [unquote_bytes_cons_ne b _ (is_unreserved_ne_37 b hu), hrest]
    · rw [show quote_byte b = [37, hexDigitAscii (b / 16), hexDigitAscii (b % 16)] from by
        simp [quote_byte, hu]]
      simp only [List.cons_append, List.nil_append]
      rw [unquote_bytes_escape (b / 16) (b % 16) _ (by omega) (by omega), hrest]
      congr 1
      omega

/-- The URL-safe base64 alphabet round-trips through `b64ValOf` (checked over
all 64 six-bit values). -/
theorem b64_val_char : ∀ v : Fin 64, b64ValOf (b64CharOf v.val) = some v.val := by decide

/-- The URL-safe base64 alphabet round-trips through `b64ValOf`. -/
theorem b64_val_char_lt (v : Nat) (h : v < 64) : b64ValOf (b64CharOf v) = some v :=
  b64_val_char ⟨v, h⟩

/-- No alphabet character is the padding character. -/
theorem b64CharOf_ne_pad (v : Nat) (h : v < 64) : b64CharOf v ≠ '=' := by
  intro he
  have hv := b64_val_char_lt v h
  rw [he] at hv
  rw [show b64ValOf '=' = none from rfl] at hv
  exact Option.noConfusion hv

/-- URL-safe base64 decoding inverts encoding on byte strings. -/
theorem b64_roundtrip : ∀ (bs : List Nat), (∀ b ∈ bs, b < 256) →
    urlsafe_b64decode (urlsafe_b64encode bs) = some bs
  | [] => fun _ => rfl
  | [a] => fun h => by
    have ha : a < 256 := h a (by simp)
    simp only [urlsafe_b64encode]
    rw [urlsafe_b64decode.eq_def]
    simp [b64_val_char_lt (a / 4) (by omega), b64_val_char_lt (a % 4 * 16) (by omega),
      Nat.mul_mod_left]
    omega
  | [a, b] => fun h => by
    have ha : a < 256 := h a (by simp)
    have hb : b < 256 := h b (by simp)
    simp only [urlsafe_b64encode]
    rw [urlsafe_b64decode.eq_def]
    simp [b64_val_char_lt (a / 4) (by omega), b64_val_char_lt (a % 4 * 16 + b / 16) (by omega),
      b64_val_char_lt (b % 16 * 4) (by omega), b64CharOf_ne_pad (b % 16 * 4) (by omega),
      Nat.mul_mod_left]
    omega
  | [a, b, c] => fun h => by
    have ha : a < 256 := h a (by simp)
    have hb : b < 256 := h b (by simp)
    have hc : c < 256 := h c (by simp)
    simp only [urlsafe_b64encode]
    rw [urlsafe_b64decode.eq_def]
    simp [b64_val_char_lt (a / 4) (by omega), b64_val_char_lt (a % 4 * 16 + b / 16) (by omega),
      b64_val_char_lt (b % 16 * 4 + c / 64) (by omega), b64_val_char_lt (c % 64) (by omega),
      b64CharOf_ne_pad (b % 16 * 4 + c / 64) (by omega), b64CharOf_ne_pad (c % 64) (by omega),
      urlsafe_b64decode]
    omega
  | a :: b :: c :: d :: rest => fun h => by
    have ha : a < 256 := h a (by simp)
    have hb : b < 256 := h b (by simp)
    have hc : c < 256 := h c (by simp)
    have ih := b64_roundtrip (d :: rest) (fun x hx => h x (by simp [hx]))
    simp only [urlsafe_b64encode]
    rw [urlsafe_b64decode.eq_def]
    simp [b64_val_char_lt (a / 4) (by omega), b64_val_char_lt (a % 4 * 16 + b / 16) (by omega),
      b64_val_char_lt (b % 16 * 4 + c / 64) (by omega), b64_val_char_lt (c % 64) (by omega),
      b64CharOf_ne_pad (b % 16 * 4 + c / 64) (by omega), b64CharOf_ne_pad (c % 64) (by omega),
      ih]
    omega

/-- Every character of a base64 encoding is an alphabet character or the
padding `=`. -/
theorem b64encode_chars : ∀ (bs : List Nat), (∀ b ∈ bs, b < 256) →
    ∀ ch ∈ urlsafe_b64encode bs, (b64ValOf ch).isSome = true ∨ ch = '='
  | [] => fun _ ch hch => absurd hch (by simp [urlsafe_b64encode])
  | [a] => fun h ch hch => by
    have ha : a < 256 := h a (by simp)
    simp only [urlsafe_b64encode, List.mem_cons, List.not_mem_nil, or_false] at hch
    rcases hch with h1 | h1 | h1 | h1 <;> subst h1
    · exact Or.inl (by rw [b64_val_char_lt (a / 4) (by omega)]; rfl)
    · exact Or.inl (by rw [b64_val_char_lt (a % 4 * 16) (by omega)]; rfl)
    · exact Or.inr rfl
    · exact Or.inr rfl
  | [a, b] => fun h ch hch => by
    have ha : a < 256 := h a (by simp)
    have hb : b < 256 := h b (by simp)
    simp only [urlsafe_b64encode, List.mem_cons, List.not_mem_nil, or_false] at hch
    rcases hch with h1 | h1 | h1 | h1 <;> subst h1
    · exact Or.inl (by rw [b64_val_char_lt (a / 4) (by omega)]; rfl)
    · exact Or.inl (by rw [b64_val_char_lt (a % 4 * 16 + b / 16) (by omega)]; rfl)
    · exact Or.inl (by rw [b64_val_char_lt (b % 16 * 4) (by omega)]; rfl)
    · exact Or.inr rfl
  | a :: b :: c :: rest => fun h ch hch => by
    have ha : a < 256 := h a (by simp)
    have hb : b < 256 := h b (by simp)
    have hc : c < 256 := h c (by simp)
    have ih := b64encode_chars rest (fun x hx => h x (by simp [hx]))
    simp only [urlsafe_b64encode, List.mem_cons] at hch
    rcases hch with h1 | h1 | h1 | h1 | h1
    · exact h1 ▸ Or.inl (by rw [b64_val_char_lt (a / 4) (by omega)]; rfl)
    · exact h1 ▸ Or.inl (by rw [b64_val_char_lt (a % 4 * 16 + b / 16) (by omega)]; rfl)
    · exact h1 ▸ Or.inl (by rw [b64_val_char_lt (b % 16 * 4 + c / 64) (by omega)]; rfl)
    · exact h1 ▸ Or.inl (by rw [b64_val_char_lt (c % 64) (by omega)]; rfl)
    · exact ih ch h1

/-- C10: relay wrapping is invertible.  `wrap_url` produces
`https://<relay>.workers.dev/?url=<b64>` where `<b64>` is the URL-safe base64
encoding of the percent-encoded URL (strings modelled by their UTF-8 bytes);
base64-decoding that query value and then percent-decoding it recovers the
input exactly, and the value contains no `&`, `?` or `#` that could disturb
its extraction from the query string. -/
theorem wrap_url_roundtrip (u : String) (relay : Nat) :
    TeraboxLink.wrap_url relay u =
      "https://" ++ base_urls.getD (relay % base_urls.length) "" ++ ".workers.dev/?url=" ++
        String.mk (urlsafe_b64encode (quote_all (utf8Bytes u))) ∧
    urlsafe_b64decode (urlsafe_b64encode (quote_all (utf8Bytes u))) =
      some (quote_all (utf8Bytes u)) ∧
    unquote_bytes (quote_all (utf8Bytes u)) = utf8Bytes u ∧
    (∀ ch ∈ urlsafe_b64encode (quote_all (utf8Bytes u)),
      ch ≠ '&' ∧ ch ≠ '?' ∧ ch ≠ '#') := by
  refine ⟨rfl, ?_, ?_, ?_⟩
  · exact b64_roundtrip _ (quote_all_lt _ (utf8Bytes_lt u))
  · exact quote_unquote _ (utf8Bytes_lt u)
  · intro ch hch
    rcases b64encode_chars _ (quote_all_lt _ (utf8Bytes_lt u)) ch hch with hsome | hpad
    · refine ⟨?_, ?_, ?_⟩ <;> intro he <;> subst he <;> exact absurd hsome (by decide)
    · subst hpad
      exact ⟨by decide, by decide, by decide⟩

/-- Witness for C10 at the concrete input `ab` with relay index 0. -/
theorem wrap_url_roundtrip_witness :
    TeraboxLink.wrap_url 0 "ab" =
      "https://plain-grass-58b2.comprehensiveaquamarine.workers.dev/?url=YWI=" ∧
    urlsafe_b64decode (urlsafe_b64encode (quote_all (utf8Bytes "ab"))) =
      some (quote_all (utf8Bytes "ab")) ∧
    unquote_bytes (quote_all (utf8Bytes "ab")) = utf8Bytes "ab" :=
  ⟨by decide, (wrap_url_roundtrip "ab" 0).2.1, (wrap_url_roundtrip "ab" 0).2.2.1⟩
